import Mathlib

/-!
Verification of the GDrive → LangChain → Ollama → Qdrant pipeline
(`src/main.py`) against its natural-language specification.

Texts, paths and messages are modelled as `List Char` (Python `str`),
which keeps every definition executable and decidable.  External
collaborators (Google Drive, the document loaders' parsing proper, the
Ollama embedding service, the Qdrant index) are parameters of an `Env`
record; the dispatch, control flow and return values of `main.py` itself
are embedded faithfully.  The chunking algorithm lives in the external
`RecursiveCharacterTextSplitter` (not part of this repository), so it is
modelled from the spec, as are the contractual behaviours of the other
external services.
-/

set_option autoImplicit false

namespace Pipeline

/-- A record produced by the Parser stage: extracted text plus metadata,
matching the spec's `DocumentRecord` and langchain's `Document`. -/
structure DocumentRecord where
  text : List Char
  metadata : List (List Char × List Char)
  deriving DecidableEq, Repr

/-- A chunk produced by the Chunker stage: a bounded window of a
`DocumentRecord`'s text, inheriting its metadata. -/
structure Chunk where
  text : List Char
  metadata : List (List Char × List Char)
  deriving DecidableEq, Repr

/-- A point upserted into the vector index: embedding vector, chunk text,
metadata.  The numeric content of vectors is irrelevant to the claims, so
vector components are modelled as integers supplied by the environment. -/
structure EmbeddedPoint where
  vector : List Int
  text : List Char
  metadata : List (List Char × List Char)
  deriving DecidableEq, Repr

/-- The error the spec's Chunker contract raises on a bad configuration. -/
inductive ChunkError where
  | configError
  deriving DecidableEq, Repr

/-- Modelled from the spec: the Chunker's window computation (the source
delegates it to `RecursiveCharacterTextSplitter`, an external library not
in this repository).  Per spec §4.3: consecutive windows of up to
`maxSize` characters, each window after the first beginning
`maxSize - overlap` = `stride` characters after the previous window's
start; the final window may be shorter (hard character cut).  The
`stride = 0` guard only ensures termination; the chunk entry point never
calls it with a zero stride. -/
def splitWindows (maxSize stride : Nat) (text : List Char) : List (List Char) :=
  if text.length ≤ maxSize ∨ stride = 0 then [text]
  else text.take maxSize :: splitWindows maxSize stride (text.drop stride)
termination_by text.length
decreasing_by
  simp only [not_or, not_le] at *
  simp only [List.length_drop]
  omega

/-- All chunks of one `DocumentRecord`: its text's windows, each carrying
the record's metadata (spec §3: chunks inherit parent metadata). -/
def chunkRecord (maxSize overlap : Nat) (doc : DocumentRecord) : List Chunk :=
  (splitWindows maxSize (maxSize - overlap) doc.text).map
    (fun w => { text := w, metadata := doc.metadata })

/-- Modelled from the spec: the Chunker contract
`chunk(records, max_size, overlap)`, failing with `ConfigError` when
`overlap ≥ max_size` (spec §4.3). -/
def chunk (maxSize overlap : Nat) (records : List DocumentRecord) :
    Except ChunkError (List Chunk) :=
  if maxSize ≤ overlap then .error .configError
  else .ok ((records.map (chunkRecord maxSize overlap)).flatten)

/-- `chunk_documents` from `src/main.py` lines 59-63: splits the documents
with the fixed configuration `chunk_size = 4000`, `chunk_overlap = 200`. -/
def chunk_documents (docs : List DocumentRecord) : Except ChunkError (List Chunk) :=
  chunk 4000 200 docs

theorem splitWindows_single {maxSize stride : Nat} {text : List Char}
    (h : text.length ≤ maxSize) :
    splitWindows maxSize stride text = [text] := by
  rw [splitWindows]
  simp [h]

theorem splitWindows_cons {maxSize stride : Nat} {text : List Char}
    (h1 : maxSize < text.length) (h2 : 0 < stride) :
    splitWindows maxSize stride text =
      text.take maxSize :: splitWindows maxSize stride (text.drop stride) := by
  rw [splitWindows]
  have : ¬ (text.length ≤ maxSize ∨ stride = 0) := by omega
  simp [this]

theorem splitWindows_ne_nil (maxSize stride : Nat) (text : List Char) :
    splitWindows maxSize stride text ≠ [] := by
  rw [splitWindows]
  split <;> simp

theorem splitWindows_head (maxSize stride : Nat) (text : List Char) (h : 0 < stride) :
    (splitWindows maxSize stride text).head? = some (text.take maxSize) := by
  rw [splitWindows]
  split
  · next hb =>
    have hle : text.length ≤ maxSize := by omega
    simp [List.take_of_length_le hle]
  · simp

/-- Every window the splitter produces has length at most `maxSize`. -/
theorem length_le_of_mem_splitWindows {maxSize stride : Nat} {text w : List Char}
    (h : 0 < stride) (hw : w ∈ splitWindows maxSize stride text) :
    w.length ≤ maxSize := by
  induction text using splitWindows.induct maxSize stride with
  | case1 t ht =>
    rw [splitWindows_single (by omega)] at hw
    simp at hw
    subst hw
    omega
  | case2 t ht ih =>
    rw [splitWindows_cons (by omega) h] at hw
    rcases List.mem_cons.mp hw with hw | hw
    · subst hw
      simp
    · exact ih hw

/-- Any two consecutive windows overlap by exactly `overlap` characters:
the earlier window is full (`maxSize` long), and its last `overlap`
characters coincide with the first `overlap` characters of the later
window, which is itself at least `overlap` long. -/
theorem splitWindows_consecutive {maxSize overlap : Nat} (hov : overlap < maxSize)
    {text p q : List Char}
    (hpq : (p, q) ∈ (splitWindows maxSize (maxSize - overlap) text).zip
        ((splitWindows maxSize (maxSize - overlap) text).tail)) :
    p.length = maxSize ∧ overlap ≤ q.length ∧
      p.drop (maxSize - overlap) = q.take overlap := by
  have hstride : 0 < maxSize - overlap := by omega
  induction text using splitWindows.induct maxSize (maxSize - overlap) with
  | case1 t ht =>
    rw [splitWindows_single (by omega)] at hpq
    simp at hpq
  | case2 t ht ih =>
    rw [splitWindows_cons (by omega) hstride] at hpq
    rcases hrest : splitWindows maxSize (maxSize - overlap) (t.drop (maxSize - overlap))
      with _ | ⟨r0, rest⟩
    · exact absurd hrest (splitWindows_ne_nil _ _ _)
    · have hr0 : r0 = (t.drop (maxSize - overlap)).take maxSize := by
        have hh := splitWindows_head maxSize (maxSize - overlap)
          (t.drop (maxSize - overlap)) hstride
        rw [hrest] at hh
        simpa using hh
      rw [hrest] at hpq
      simp only [List.tail_cons, List.zip_cons_cons, List.mem_cons] at hpq
      rcases hpq with hpq | hpq
      · have hp : p = t.take maxSize := (Prod.mk.injEq _ _ _ _ ▸ hpq).1
        have hq : q = r0 := (Prod.mk.injEq _ _ _ _ ▸ hpq).2
        subst hp hq hr0
        refine ⟨?_, ?_, ?_⟩
        · simp only [List.length_take]
          omega
        · simp only [List.length_take, List.length_drop]
          omega
        · rw [List.drop_take, List.take_take]
          congr 1
          omega
      · exact ih (by rw [hrest]; simpa using hpq)

/-- Rebuild a text from its windows: keep the first window whole and drop
the first `overlap` characters of every later window. -/
def reconstructWindows (overlap : Nat) : List (List Char) → List Char
  | [] => []
  | w :: rest => w ++ (rest.map (fun v => v.drop overlap)).flatten

theorem splitWindows_flatten_drop {maxSize overlap : Nat} (hov : overlap < maxSize)
    (u : List Char) :
    ((splitWindows maxSize (maxSize - overlap) u).map (fun w => w.drop overlap)).flatten
      = u.drop overlap := by
  have hstride : 0 < maxSize - overlap := by omega
  induction u using splitWindows.induct maxSize (maxSize - overlap) with
  | case1 t ht =>
    rw [splitWindows_single (by omega)]
    simp
  | case2 t ht ih =>
    rw [splitWindows_cons (by omega) hstride]
    simp only [List.map_cons, List.flatten_cons, ih]
    rw [List.drop_take]
    have h2 : (t.drop (maxSize - overlap)).drop overlap
        = (t.drop overlap).drop (maxSize - overlap) := by
      rw [List.drop_drop, List.drop_drop]
      congr 1
      omega
    rw [h2, List.take_append_drop]

/-- The window decomposition loses no characters: dropping each later
window's leading overlap and concatenating gives back the source text. -/
theorem splitWindows_reconstruct {maxSize overlap : Nat} (hov : overlap < maxSize)
    (t : List Char) :
    reconstructWindows overlap (splitWindows maxSize (maxSize - overlap) t) = t := by
  by_cases hle : t.length ≤ maxSize
  · rw [splitWindows_single hle]
    simp [reconstructWindows]
  · rw [splitWindows_cons (by omega) (by omega)]
    simp only [reconstructWindows]
    rw [splitWindows_flatten_drop hov, List.drop_drop]
    have h3 : (maxSize - overlap) + overlap = maxSize := by omega
    rw [h3, List.take_append_drop]

/-- Consecutive chunks of one record, lifted from `splitWindows_consecutive`
to `Chunk` values. -/
theorem chunkRecord_consecutive {maxSize overlap : Nat} (hov : overlap < maxSize)
    (doc : DocumentRecord) (pq : Chunk × Chunk)
    (hpq : pq ∈ (chunkRecord maxSize overlap doc).zip
        (chunkRecord maxSize overlap doc).tail) :
    pq.1.text.length = maxSize ∧ overlap ≤ pq.2.text.length ∧
      pq.1.text.drop (maxSize - overlap) = pq.2.text.take overlap := by
  unfold chunkRecord at hpq
  rw [← List.map_tail, List.zip_map] at hpq
  rcases List.mem_map.mp hpq with ⟨⟨w1, w2⟩, hw, rfl⟩
  simpa using splitWindows_consecutive hov hw

end Pipeline

namespace Pipeline

/-- Claim C1: with the configured parameters (`max_size = 4000`,
`overlap = 200`), every chunk `chunk_documents` produces has text length
at most 4000, and each pair of consecutive chunks from the same
`DocumentRecord` overlaps by exactly 200 characters: the earlier chunk of
the pair is full (4000 characters) and its last 200 characters equal the
first 200 characters of the later chunk. -/
theorem chunk_documents_size_and_overlap (docs : List DocumentRecord) (cs : List Chunk)
    (hcs : chunk_documents docs = .ok cs) :
    (∀ c ∈ cs, c.text.length ≤ 4000) ∧
    (∀ doc ∈ docs,
      ∀ pq ∈ (chunkRecord 4000 200 doc).zip (chunkRecord 4000 200 doc).tail,
        pq.1.text.length = 4000 ∧ 200 ≤ pq.2.text.length ∧
          pq.1.text.drop 3800 = pq.2.text.take 200) ∧
    cs = (docs.map (chunkRecord 4000 200)).flatten := by
  have hcs' : cs = (docs.map (chunkRecord 4000 200)).flatten := by
    simp only [chunk_documents, chunk] at hcs
    norm_num at hcs
    exact hcs.symm
  refine ⟨?_, ?_, hcs'⟩
  · intro c hc
    rw [hcs'] at hc
    rcases List.mem_flatten.mp hc with ⟨l, hl, hcl⟩
    rcases List.mem_map.mp hl with ⟨doc, hdoc, rfl⟩
    rcases List.mem_map.mp hcl with ⟨w, hw, rfl⟩
    exact length_le_of_mem_splitWindows (by omega) hw
  · intro doc hdoc pq hpq
    exact chunkRecord_consecutive (by omega) doc pq hpq

/-- Witness for C1: the claim's conclusion holds at a concrete two-character
document, whose single chunk is the document itself. -/
theorem chunk_documents_size_and_overlap_witness :
    (∀ c ∈ [({ text := ['h', 'i'], metadata := [] } : Chunk)], c.text.length ≤ 4000) ∧
    (∀ doc ∈ [({ text := ['h', 'i'], metadata := [] } : DocumentRecord)],
      ∀ pq ∈ (chunkRecord 4000 200 doc).zip (chunkRecord 4000 200 doc).tail,
        pq.1.text.length = 4000 ∧ 200 ≤ pq.2.text.length ∧
          pq.1.text.drop 3800 = pq.2.text.take 200) ∧
    [({ text := ['h', 'i'], metadata := [] } : Chunk)] =
      ([({ text := ['h', 'i'], metadata := [] } : DocumentRecord)].map
        (chunkRecord 4000 200)).flatten :=
  chunk_documents_size_and_overlap
    [{ text := ['h', 'i'], metadata := [] }]
    [{ text := ['h', 'i'], metadata := [] }]
    (by
      have h1 : splitWindows 4000 3800 ['h', 'i'] = [['h', 'i']] :=
        splitWindows_single (by simp)
      simp [chunk_documents, chunk, chunkRecord, h1])

/-- Claim C2: the chunk sequence `chunk_documents` produces for a document
covers its text totally and without gaps: keeping the first chunk whole and
dropping the 200-character overlap from every later chunk reconstructs the
original text exactly. -/
theorem chunk_documents_roundtrip (doc : DocumentRecord) (cs : List Chunk)
    (hcs : chunk_documents [doc] = .ok cs) :
    reconstructWindows 200 (cs.map Chunk.text) = doc.text := by
  have hcs' : cs = chunkRecord 4000 200 doc := by
    simp only [chunk_documents, chunk] at hcs
    norm_num at hcs
    simpa using hcs.symm
  rw [hcs']
  have hmap : (chunkRecord 4000 200 doc).map Chunk.text
      = splitWindows 4000 3800 doc.text := by
    simp only [chunkRecord, List.map_map]
    exact List.map_id _ ▸ rfl
  rw [hmap]
  exact splitWindows_reconstruct (by omega) doc.text

/-- Witness for C2: round-trip at a concrete two-character document. -/
theorem chunk_documents_roundtrip_witness :
    reconstructWindows 200
      ([({ text := ['o', 'k'], metadata := [] } : Chunk)].map Chunk.text)
      = ({ text := ['o', 'k'], metadata := [] } : DocumentRecord).text :=
  chunk_documents_roundtrip
    { text := ['o', 'k'], metadata := [] }
    [{ text := ['o', 'k'], metadata := [] }]
    (by
      have h1 : splitWindows 4000 3800 ['o', 'k'] = [['o', 'k']] :=
        splitWindows_single (by simp)
      simp [chunk_documents, chunk, chunkRecord, h1])

/-- Claim C7: for every configuration with `overlap ≥ max_size`, the chunk
operation fails with `ConfigError`, on any input records. -/
theorem chunk_config_error {maxSize overlap : Nat} (records : List DocumentRecord)
    (h : maxSize ≤ overlap) :
    chunk maxSize overlap records = .error .configError := by
  simp [chunk, h]

/-- Witness for C7: `overlap = max_size = 4` is rejected. -/
theorem chunk_config_error_witness :
    chunk 4 4 [] = Except.error ChunkError.configError :=
  chunk_config_error [] (by omega)

/-- ASCII lowering of one character, the fragment of Python's `str.lower`
relevant here (all extensions involved are ASCII). -/
def pyLower (c : Char) : Char :=
  if 'A' ≤ c ∧ c ≤ 'Z' then Char.ofNat (c.toNat + 32) else c

/-- `os.path.splitext` for POSIX paths, on the characters of the path:
split off the extension starting at the last dot of the final path
component, unless that component's leading run is entirely dots (so
`.bashrc` has no extension), returning `(root, ext)`. -/
def splitext (p : List Char) : List Char × List Char :=
  let base := ((p.reverse.takeWhile (fun c => c != '/'))).reverse
  let afterDot := base.reverse.takeWhile (fun c => c != '.')
  if afterDot.length = base.length then (p, [])
  else
    let k := base.length - afterDot.length - 1
    if (base.take k).all (fun c => c == '.') then (p, [])
    else (p.take (p.length - afterDot.length - 1), '.' :: afterDot.reverse)

/-- `os.path.join` for POSIX paths, two arguments (the call shape used in
`download_file_from_drive`): an absolute second component replaces the
first entirely. -/
def joinPath (a b : List Char) : List Char :=
  if b.head? = some '/' then b
  else if a = [] ∨ a.getLast? = some '/' then a ++ b
  else a ++ '/' :: b

/-- The lowercased extension `src/main.py` line 45 computes:
`os.path.splitext(file_path)[-1].lower()`. -/
def extOf (p : List Char) : List Char :=
  (splitext p).2.map pyLower

/-- The three loaders `load_document` can dispatch to. -/
inductive LoaderKind where
  | pdfLoader
  | textLoader
  | csvLoader
  deriving DecidableEq, Repr

/-- The extension dispatch of `load_document` (`src/main.py` lines 45-53):
which loader a path is routed to, or the `ValueError` message raised for
an unsupported extension. -/
def chooseLoader (p : List Char) : Except (List Char) LoaderKind :=
  let ext := extOf p
  if ext = ".pdf".data then .ok .pdfLoader
  else if ext = ".txt".data then .ok .textLoader
  else if ext = ".csv".data then .ok .csvLoader
  else .error ("Unsupported file format: ".data ++ ext)

/-- A file in the remote store: display name, MIME type, content. -/
structure DriveFile where
  name : List Char
  mimeType : List Char
  content : List Char
  deriving DecidableEq, Repr

/-- The external collaborators, treated as black boxes per the spec:
the remote store, the extraction routines behind the three loaders, and
the embedding/index backends (whose call either raises or succeeds). -/
structure Env where
  tmpDir : List Char
  drive : List Char → Option DriveFile
  parse : LoaderKind → List Char → Except (List Char) (List DocumentRecord)
  embedOutcome : Except (List Char) Unit
  embed : List Char → List Int

/-- The five pipeline stages the request handler can enter, in source
order. -/
inductive Stage where
  | fetchMeta
  | download
  | parse
  | chunk
  | embed
  deriving DecidableEq, Repr

/-- Observable state of one run: local scratch files written, points
upserted into the index, and the stages entered (in order). -/
structure RunState where
  fs : List (List Char × List Char)
  points : List EmbeddedPoint
  trace : List Stage
  deriving DecidableEq, Repr

/-- Content stored at a path in the scratch file system. -/
def fsRead (fs : List (List Char × List Char)) (p : List Char) : List Char :=
  match fs.find? (fun e => e.1 == p) with
  | some e => e.2
  | none => []

/-- `download_file_from_drive` (`src/main.py` lines 31-41): joins the temp
directory with the remote display name — with no sanitization — writes the
remote content there, and returns the path.  The media download is
modelled as returning the stored content of the identified file. -/
def download_file_from_drive (env : Env) (fs : List (List Char × List Char))
    (fileId fileName : List Char) : List Char × List (List Char × List Char) :=
  let path := joinPath env.tmpDir fileName
  let content := match env.drive fileId with
    | some f => f.content
    | none => []
  (path, (path, content) :: fs)

/-- `load_document` (`src/main.py` lines 44-56): dispatch on the lowercased
extension, raise `ValueError ("Unsupported file format: " ++ ext)`
otherwise, then run the selected loader (an external extraction routine)
on the file's content. -/
def load_document (env : Env) (fs : List (List Char × List Char))
    (p : List Char) : Except (List Char) (List DocumentRecord) :=
  match chooseLoader p with
  | .error e => .error e
  | .ok k => env.parse k (fsRead fs p)

/-- A Python value as returned by `embed_and_store` or compared against a
count: a boolean or an integer, with Python's cross-type `==` (`True == 1`,
`False == 0`). -/
inductive PyVal where
  | pyBool (b : Bool)
  | pyInt (n : Int)
  deriving DecidableEq, Repr

/-- Python `==` between the values above: `bool` is a subtype of `int`. -/
def PyVal.pyEq : PyVal → PyVal → Bool
  | .pyBool a, .pyBool b => a == b
  | .pyBool a, .pyInt n => (if a then (1 : Int) else 0) == n
  | .pyInt n, .pyBool a => n == (if a then (1 : Int) else 0)
  | .pyInt m, .pyInt n => m == n

/-- `embed_and_store` (`src/main.py` lines 66-75): embed each chunk and
upsert one point per chunk (the per-point behaviour of
`Qdrant.from_documents` is modelled from the spec: every chunk yields
exactly one `EmbeddedPoint` upserted into the collection); a backend
failure raises.  On success the function returns the Python literal
`True` (line 75) — not a count. -/
def embed_and_store (env : Env) (chunks : List Chunk) :
    Except (List Char) (PyVal × List EmbeddedPoint) :=
  match env.embedOutcome with
  | .error e => .error e
  | .ok _ => .ok (PyVal.pyBool true,
      chunks.map (fun c => { vector := env.embed c.text, text := c.text,
                             metadata := c.metadata }))

/-- Modelled from the spec: the remote store's "<not found message>" when
a file identifier does not resolve (the concrete wording comes from the
Google API client, which is external). -/
def notFoundMessage (fileId : List Char) : List Char :=
  "File not found: ".data ++ fileId

/-- Modelled from the spec: the flattened message of the `ConfigError` a
bad chunk configuration raises (never reached with the fixed 4000/200
configuration). -/
def configErrorMessage : List Char :=
  "chunk_overlap must be smaller than chunk_size".data

/-- The JSON envelope `process_drive_file` returns: exactly one of
`{status: "success", file, chunks}` or `{error}`. -/
inductive Response where
  | success (file : List Char) (chunks : Nat)
  | failure (error : List Char)
  deriving DecidableEq, Repr

/-- `process_drive_file` (`src/main.py` lines 78-104): fetch metadata,
download, parse, chunk, embed-and-store, strictly in sequence, each stage
entered only if every earlier stage succeeded; the first error short-
circuits to the `{error: str(e)}` envelope.  The trace records each stage
as it is entered. -/
def process_drive_file (env : Env) (fileId : List Char) (s : RunState) :
    Response × RunState :=
  let s1 : RunState := { s with trace := s.trace ++ [Stage.fetchMeta] }
  match env.drive fileId with
  | none => (.failure (notFoundMessage fileId), s1)
  | some file =>
    let s2 : RunState := { s1 with trace := s1.trace ++ [Stage.download] }
    let pf := download_file_from_drive env s2.fs fileId file.name
    let s3 : RunState := { s2 with fs := pf.2 }
    let s4 : RunState := { s3 with trace := s3.trace ++ [Stage.parse] }
    match load_document env s4.fs pf.1 with
    | .error e => (.failure e, s4)
    | .ok docs =>
      let s5 : RunState := { s4 with trace := s4.trace ++ [Stage.chunk] }
      match chunk_documents docs with
      | .error _ => (.failure configErrorMessage, s5)
      | .ok chunks =>
        let s6 : RunState := { s5 with trace := s5.trace ++ [Stage.embed] }
        match embed_and_store env chunks with
        | .error e => (.failure e, s6)
        | .ok r => (.success file.name chunks.length,
            { s6 with points := s6.points ++ r.2 })

/-- Claim C4: every request ends in exactly one of the two envelope
shapes — `Response` has exactly the two constructors, so the shapes can
never mix — and a success envelope always reports the drive file's
display name together with the number of chunks produced, while every
error path yields a `failure` envelope carrying the flattened message of
the exception; no exception escapes the handler (the model's result type
has no third alternative). -/
theorem process_drive_file_envelope (env : Env) (fileId : List Char) (s : RunState) :
    (∃ e, (process_drive_file env fileId s).1 = Response.failure e) ∨
    (∃ f docs chunks,
      env.drive fileId = some f ∧
      load_document env ((joinPath env.tmpDir f.name, f.content) :: s.fs)
        (joinPath env.tmpDir f.name) = .ok docs ∧
      chunk_documents docs = .ok chunks ∧
      (process_drive_file env fileId s).1 = Response.success f.name chunks.length) := by
  simp only [process_drive_file]
  split
  · exact Or.inl ⟨_, rfl⟩
  next file hfile =>
    simp only [download_file_from_drive, hfile]
    split
    next e hload =>
      exact Or.inl ⟨_, rfl⟩
    next docs hload =>
      split
      next hchunk =>
        exact Or.inl ⟨_, rfl⟩
      next chunks hchunk =>
        split
        next e hembed =>
          exact Or.inl ⟨_, rfl⟩
        next r hembed =>
          exact Or.inr ⟨file, docs, chunks, rfl, hload, hchunk, rfl⟩

/-- The stage order of the handler, as in the source. -/
def stageOrder : List Stage :=
  [Stage.fetchMeta, Stage.download, Stage.parse, Stage.chunk, Stage.embed]

/-- Claim C5: whichever stage fails, the handler halts there.  Each failing
stage fully determines the run's output: the returned envelope is the
failure for that stage's error, the trace extension records exactly the
stages up to and including the failing one — so no later stage is ever
entered — and no point is upserted (`points` unchanged; the only state
left behind is the downloaded scratch file, which the source never cleans
up).  In particular an unresolvable file identifier fails after the
metadata fetch alone, before download, parse, chunk or embed.  Finally,
the trace extension of every run is a prefix of the canonical stage order,
so no stage is ever retried or entered out of order. -/
theorem process_drive_file_halts_on_error (env : Env) (fileId : List Char) (s : RunState) :
    (env.drive fileId = none →
      process_drive_file env fileId s =
        (Response.failure (notFoundMessage fileId),
         { s with trace := s.trace ++ [Stage.fetchMeta] })) ∧
    (∀ f e, env.drive fileId = some f →
      load_document env ((joinPath env.tmpDir f.name, f.content) :: s.fs)
          (joinPath env.tmpDir f.name) = .error e →
      process_drive_file env fileId s =
        (Response.failure e,
         { fs := (joinPath env.tmpDir f.name, f.content) :: s.fs,
           points := s.points,
           trace := s.trace ++ [Stage.fetchMeta] ++ [Stage.download]
             ++ [Stage.parse] })) ∧
    (∀ f docs ce, env.drive fileId = some f →
      load_document env ((joinPath env.tmpDir f.name, f.content) :: s.fs)
          (joinPath env.tmpDir f.name) = .ok docs →
      chunk_documents docs = .error ce →
      process_drive_file env fileId s =
        (Response.failure configErrorMessage,
         { fs := (joinPath env.tmpDir f.name, f.content) :: s.fs,
           points := s.points,
           trace := s.trace ++ [Stage.fetchMeta] ++ [Stage.download]
             ++ [Stage.parse] ++ [Stage.chunk] })) ∧
    (∀ f docs chunks e, env.drive fileId = some f →
      load_document env ((joinPath env.tmpDir f.name, f.content) :: s.fs)
          (joinPath env.tmpDir f.name) = .ok docs →
      chunk_documents docs = .ok chunks →
      embed_and_store env chunks = .error e →
      process_drive_file env fileId s =
        (Response.failure e,
         { fs := (joinPath env.tmpDir f.name, f.content) :: s.fs,
           points := s.points,
           trace := s.trace ++ [Stage.fetchMeta] ++ [Stage.download]
             ++ [Stage.parse] ++ [Stage.chunk] ++ [Stage.embed] })) ∧
    (∃ l rest, l ++ rest = stageOrder ∧
      (process_drive_file env fileId s).2.trace = s.trace ++ l) := by
  refine ⟨?_, ?_, ?_, ?_, ?_⟩
  · intro h
    simp [process_drive_file, h]
  · intro f e hf hl
    simp only [process_drive_file, hf, download_file_from_drive]
    split
    next e2 hl2 =>
      rw [hl] at hl2
      cases hl2
      rfl
    next docs hl2 =>
      rw [hl] at hl2
      cases hl2
  · intro f docs ce hf hl hc
    simp only [process_drive_file, hf, download_file_from_drive]
    split
    next e2 hl2 =>
      rw [hl] at hl2
      cases hl2
    next docs2 hl2 =>
      rw [hl] at hl2
      cases hl2
      split
      next hc2 =>
        rfl
      next chunks hc2 =>
        rw [hc] at hc2
        cases hc2
  · intro f docs chunks e hf hl hc he
    simp only [process_drive_file, hf, download_file_from_drive]
    split
    next e2 hl2 =>
      rw [hl] at hl2
      cases hl2
    next docs2 hl2 =>
      rw [hl] at hl2
      cases hl2
      split
      next hc2 =>
        rw [hc] at hc2
        cases hc2
      next chunks2 hc2 =>
        rw [hc] at hc2
        cases hc2
        split
        next e2 he2 =>
          rw [he] at he2
          cases he2
          rfl
        next r he2 =>
          rw [he] at he2
          cases he2
  · simp only [process_drive_file]
    split
    · exact ⟨[Stage.fetchMeta], _, rfl, by simp⟩
    · split
      · exact ⟨[Stage.fetchMeta, Stage.download, Stage.parse], _, rfl, by simp⟩
      · split
        · exact ⟨[Stage.fetchMeta, Stage.download, Stage.parse, Stage.chunk], _, rfl, by simp⟩
        · split
          · exact ⟨stageOrder, [], by simp [stageOrder], by simp [stageOrder]⟩
          · exact ⟨stageOrder, [], by simp [stageOrder], by simp [stageOrder]⟩

/-- Decidable equality of `Except` results, for evaluating stage outcomes
on concrete inputs. -/
instance instDecidableEqExcept {ε α : Type} [DecidableEq ε] [DecidableEq α] :
    DecidableEq (Except ε α)
  | .error e, .error f =>
    if h : e = f then .isTrue (by rw [h])
    else .isFalse (by intro hc; cases hc; exact h rfl)
  | .error _, .ok _ => .isFalse (by intro hc; cases hc)
  | .ok _, .error _ => .isFalse (by intro hc; cases hc)
  | .ok x, .ok y =>
    if h : x = y then .isTrue (by rw [h])
    else .isFalse (by intro hc; cases hc; exact h rfl)

/-- The state of a fresh run: nothing written, nothing indexed, no stage
entered. -/
def emptyState : RunState :=
  { fs := [], points := [], trace := [] }

/-- The supported extensions of `load_document`, lowercased, with the dot,
in source order. -/
def supportedExts : List (List Char) :=
  [".pdf".data, ".txt".data, ".csv".data]

/-- Outside the supported set, the dispatch raises the `ValueError` whose
message names the lowercased extension. -/
theorem chooseLoader_unsupported {p : List Char} (h : extOf p ∉ supportedExts) :
    chooseLoader p = .error ("Unsupported file format: ".data ++ extOf p) := by
  simp only [supportedExts, List.mem_cons, List.not_mem_nil, or_false, not_or] at h
  obtain ⟨h1, h2, h3⟩ := h
  simp [chooseLoader, h1, h2, h3]

/-- Claim C6: for every path whose (lowercased) extension is outside
`{.pdf, .txt, .csv}`, `load_document` fails with the error whose flattened
message is `Unsupported file format: <ext>` — regardless of file content —
and the endpoint surfaces exactly that message in its error envelope. -/
theorem load_document_unsupported_format (env : Env) :
    (∀ fs p, extOf p ∉ supportedExts →
      load_document env fs p =
        .error ("Unsupported file format: ".data ++ extOf p)) ∧
    (∀ fileId s f, env.drive fileId = some f →
      extOf (joinPath env.tmpDir f.name) ∉ supportedExts →
      (process_drive_file env fileId s).1 =
        Response.failure ("Unsupported file format: ".data ++
          extOf (joinPath env.tmpDir f.name))) := by
  constructor
  · intro fs p h
    simp [load_document, chooseLoader_unsupported h]
  · intro fileId s f hf h
    simp only [process_drive_file, hf, download_file_from_drive]
    rw [load_document, chooseLoader_unsupported h]

/-- A remote store holding one `.docx` file, used to exercise the
unsupported-format path. -/
def envDocx : Env :=
  { tmpDir := "/tmp".data,
    drive := fun fid => if fid = "id1".data then
      some { name := "report.docx".data, mimeType := "app/docx".data,
             content := "body".data } else none,
    parse := fun _ _ => .ok [],
    embedOutcome := .ok (),
    embed := fun _ => [] }

/-- Witness for C6: a `.docx` file is rejected with the message
`Unsupported file format: .docx`, both by `load_document` and by the
endpoint. -/
theorem load_document_unsupported_format_witness :
    load_document envDocx [] "/tmp/report.docx".data
      = .error "Unsupported file format: .docx".data ∧
    (process_drive_file envDocx "id1".data
        { fs := [], points := [], trace := [] }).1
      = Response.failure "Unsupported file format: .docx".data := by
  constructor
  · have h := (load_document_unsupported_format envDocx).1 []
      "/tmp/report.docx".data (by decide)
    rw [h]
    decide
  · have h := (load_document_unsupported_format envDocx).2 "id1".data
      { fs := [], points := [], trace := [] }
      { name := "report.docx".data, mimeType := "app/docx".data,
        content := "body".data }
      (by decide) (by decide)
    rw [h]
    decide

/-- Claim C9: the extension dispatch of `load_document` is
case-insensitive: the chosen loader depends only on the lowercased
extension, so `.PDF`, `.Txt` and `.CSV` paths are routed exactly as their
lowercase forms, and an unsupported-format error message contains the
lowercased extension only. -/
theorem chooseLoader_case_insensitive :
    (∀ p q, (splitext p).2.map pyLower = (splitext q).2.map pyLower →
      chooseLoader p = chooseLoader q) ∧
    (∀ p e, chooseLoader p = .error e →
      e = "Unsupported file format: ".data ++ (splitext p).2.map pyLower) ∧
    chooseLoader "a.PDF".data = chooseLoader "a.pdf".data ∧
    chooseLoader "a.PDF".data = .ok LoaderKind.pdfLoader ∧
    chooseLoader "b.Txt".data = chooseLoader "b.txt".data ∧
    chooseLoader "b.Txt".data = .ok LoaderKind.textLoader ∧
    chooseLoader "c.CSV".data = chooseLoader "c.csv".data ∧
    chooseLoader "c.CSV".data = .ok LoaderKind.csvLoader := by
  refine ⟨?_, ?_, by decide, by decide, by decide, by decide, by decide, by decide⟩
  · intro p q h
    simp only [chooseLoader, extOf, h]
  · intro p e h
    simp only [chooseLoader, extOf] at h
    split at h
    · exact absurd h (by simp)
    · split at h
      · exact absurd h (by simp)
      · split at h
        · exact absurd h (by simp)
        · simpa using h.symm

/-- Witness for C9: the general conjuncts applied at `.PDF` versus `.pdf`
and at a `.docx` path. -/
theorem chooseLoader_case_insensitive_witness :
    chooseLoader "x/y.PDF".data = chooseLoader "z.pdf".data ∧
    "Unsupported file format: .docx".data =
      "Unsupported file format: ".data ++ (splitext "d.DocX".data).2.map pyLower :=
  ⟨chooseLoader_case_insensitive.1 "x/y.PDF".data "z.pdf".data (by decide),
   chooseLoader_case_insensitive.2.1 "d.DocX".data
     "Unsupported file format: .docx".data (by decide)⟩

/-- A remote store whose single file has an absolute path as its display
name. -/
def envEscape : Env :=
  { tmpDir := "/tmp".data,
    drive := fun fid => if fid = "id9".data then
      some { name := "/etc/passwd".data, mimeType := "text/plain".data,
             content := "secret".data } else none,
    parse := fun _ _ => .ok [],
    embedOutcome := .ok (),
    embed := fun _ => [] }

/-- Claim C10: `download_file_from_drive` writes to
`join(tempdir, display_name)` with no sanitization of the display name,
and for the display name `/etc/passwd` the written local path is
`/etc/passwd` itself — not under the `/tmp` scratch directory. -/
theorem download_file_from_drive_unsanitized :
    (∀ env fs fileId fileName,
      (download_file_from_drive env fs fileId fileName).1
        = joinPath env.tmpDir fileName) ∧
    (download_file_from_drive envEscape [] "id9".data "/etc/passwd".data).1
      = "/etc/passwd".data ∧
    List.isPrefixOf "/tmp/".data
      (download_file_from_drive envEscape [] "id9".data "/etc/passwd".data).1
      = false ∧
    (download_file_from_drive envEscape [] "id9".data "/etc/passwd".data).2
      = [("/etc/passwd".data, "secret".data)] :=
  ⟨fun _ _ _ _ => rfl, by decide, by decide, by decide⟩

/-- An environment whose embedding and index backends are reachable and
always succeed. -/
def envStore : Env :=
  { tmpDir := "/tmp".data,
    drive := fun _ => none,
    parse := fun _ _ => .ok [],
    embedOutcome := .ok (),
    embed := fun _ => [] }

/-- A remote store whose text file is found and parsed, but whose
embedding backend is down. -/
def envEmbedFail : Env :=
  { tmpDir := "/tmp".data,
    drive := fun fid => if fid = "t1".data then
      some { name := "a.txt".data, mimeType := "text/plain".data,
             content := "xyz".data } else none,
    parse := fun _ content => .ok [{ text := content, metadata := [] }],
    embedOutcome := .error "Ollama unreachable".data,
    embed := fun _ => [] }

/-- Witness for C5 at three concrete runs: an unresolvable identifier
stops after the metadata fetch; a `.docx` file stops at the parse stage
with chunk and embed never entered; a downed embedding backend fails at
the embed stage with no point upserted. -/
theorem process_drive_file_halts_on_error_witness :
    process_drive_file envStore "nope".data emptyState
      = (Response.failure (notFoundMessage "nope".data),
         { emptyState with trace := emptyState.trace ++ [Stage.fetchMeta] }) ∧
    process_drive_file envDocx "id1".data emptyState
      = (Response.failure "Unsupported file format: .docx".data,
         { fs := (joinPath envDocx.tmpDir "report.docx".data, "body".data)
             :: emptyState.fs,
           points := emptyState.points,
           trace := emptyState.trace ++ [Stage.fetchMeta] ++ [Stage.download]
             ++ [Stage.parse] }) ∧
    process_drive_file envEmbedFail "t1".data emptyState
      = (Response.failure "Ollama unreachable".data,
         { fs := (joinPath envEmbedFail.tmpDir "a.txt".data, "xyz".data)
             :: emptyState.fs,
           points := emptyState.points,
           trace := emptyState.trace ++ [Stage.fetchMeta] ++ [Stage.download]
             ++ [Stage.parse] ++ [Stage.chunk] ++ [Stage.embed] }) ∧
    (∃ l rest, l ++ rest = stageOrder ∧
      (process_drive_file envStore "nope".data emptyState).2.trace
        = emptyState.trace ++ l) := by
  have hxyz : chunk_documents [{ text := "xyz".data, metadata := [] }]
      = .ok [{ text := "xyz".data, metadata := [] }] := by
    have h1 : splitWindows 4000 3800 "xyz".data = ["xyz".data] :=
      splitWindows_single (by decide)
    simp [chunk_documents, chunk, chunkRecord, h1]
  refine ⟨?_, ?_, ?_, ?_⟩
  · exact (process_drive_file_halts_on_error envStore "nope".data emptyState).1 rfl
  · exact (process_drive_file_halts_on_error envDocx "id1".data emptyState).2.1
      { name := "report.docx".data, mimeType := "app/docx".data,
        content := "body".data }
      "Unsupported file format: .docx".data (by decide) (by decide)
  · exact (process_drive_file_halts_on_error envEmbedFail "t1".data emptyState).2.2.2.1
      { name := "a.txt".data, mimeType := "text/plain".data,
        content := "xyz".data }
      [{ text := "xyz".data, metadata := [] }]
      [{ text := "xyz".data, metadata := [] }]
      "Ollama unreachable".data (by decide) (by decide) hxyz rfl
  · exact (process_drive_file_halts_on_error envStore "nope".data emptyState).2.2.2.2

/-- Counterexample to C3 as stated: on a two-chunk input with a reachable
backend, `embed_and_store` does upsert two points, but its return value is
the Python literal `True` (`src/main.py` line 75), which is not the count
2 — not even under Python's numeric comparison of booleans
(`True == 2` is `False`). -/
theorem embed_and_store_count_counterexample :
    embed_and_store envStore
        [{ text := "ab".data, metadata := [] },
         { text := "cd".data, metadata := [] }]
      = .ok (PyVal.pyBool true,
          [{ vector := [], text := "ab".data, metadata := [] },
           { vector := [], text := "cd".data, metadata := [] }]) ∧
    PyVal.pyEq (PyVal.pyBool true) (PyVal.pyInt 2) = false := by
  decide

/-- Claim C3 (amended): with a reachable backend, `embed_and_store` on a
non-empty chunk list upserts exactly one `EmbeddedPoint` per chunk —
`N` points for `N` chunks, preserving each chunk's text and metadata —
but returns the boolean `True` rather than the count; the chunk count the
endpoint reports comes from `len(chunks)` in `process_drive_file`, not
from this return value. -/
theorem embed_and_store_point_per_chunk (env : Env) (chunks : List Chunk)
    (hok : env.embedOutcome = .ok ()) (_hne : chunks ≠ []) :
    embed_and_store env chunks
      = .ok (PyVal.pyBool true,
          chunks.map (fun c => { vector := env.embed c.text, text := c.text,
                                 metadata := c.metadata })) ∧
    (chunks.map (fun c : Chunk =>
        ({ vector := env.embed c.text, text := c.text,
           metadata := c.metadata } : EmbeddedPoint))).length
      = chunks.length := by
  refine ⟨?_, by simp⟩
  rw [embed_and_store, hok]

/-- Witness for C3 (amended) at a concrete one-chunk input. -/
theorem embed_and_store_point_per_chunk_witness :
    embed_and_store envStore [{ text := "hi".data, metadata := [] }]
      = .ok (PyVal.pyBool true,
          [({ text := "hi".data, metadata := [] } : Chunk)].map
            (fun c => { vector := envStore.embed c.text, text := c.text,
                        metadata := c.metadata })) ∧
    ([({ text := "hi".data, metadata := [] } : Chunk)].map
        (fun c : Chunk =>
          ({ vector := envStore.embed c.text, text := c.text,
             metadata := c.metadata } : EmbeddedPoint))).length
      = [({ text := "hi".data, metadata := [] } : Chunk)].length :=
  embed_and_store_point_per_chunk envStore
    [{ text := "hi".data, metadata := [] }] rfl (by decide)

/-- A 9000-character plain text (the spec's end-to-end scenario input). -/
def text9000 : List Char := List.replicate 9000 'a'

/-- The single `DocumentRecord` the text loader produces for that file. -/
def doc9000 : DocumentRecord := { text := text9000, metadata := [] }

/-- The three chunks the 9000-character text splits into at
`max_size = 4000`, `overlap = 200`. -/
def chunks9000 : List Chunk :=
  [{ text := List.replicate 4000 'a', metadata := [] },
   { text := List.replicate 4000 'a', metadata := [] },
   { text := List.replicate 1400 'a', metadata := [] }]

/-- A remote store holding the 9000-character `report.txt`, with reachable
backends; the text loader returns one record carrying the whole file. -/
def env9000 : Env :=
  { tmpDir := "/tmp".data,
    drive := fun fid => if fid = "f9".data then
      some { name := "report.txt".data, mimeType := "text/plain".data,
             content := text9000 } else none,
    parse := fun _ content => .ok [{ text := content, metadata := [] }],
    embedOutcome := .ok (),
    embed := fun _ => [] }

theorem splitWindows_text9000 :
    splitWindows 4000 3800 text9000 =
      [List.replicate 4000 'a', List.replicate 4000 'a', List.replicate 1400 'a'] := by
  rw [text9000]
  rw [splitWindows_cons (by rw [List.length_replicate]; norm_num) (by norm_num)]
  rw [List.take_replicate, List.drop_replicate]
  norm_num
  rw [splitWindows_cons (by rw [List.length_replicate]; norm_num) (by norm_num)]
  rw [List.take_replicate, List.drop_replicate]
  norm_num
  rw [splitWindows_single (by rw [List.length_replicate]; norm_num)]

theorem chunkRecord_9000 : chunkRecord 4000 200 doc9000 = chunks9000 := by
  rw [chunkRecord]
  rw [show doc9000.text = text9000 from rfl]
  rw [show (4000 - 200 : Nat) = 3800 from by norm_num]
  rw [splitWindows_text9000]
  rfl

theorem chunk_documents_9000 : chunk_documents [doc9000] = .ok chunks9000 := by
  rw [chunk_documents, chunk, if_neg (by norm_num)]
  rw [List.map_cons, List.map_nil, List.flatten_cons, List.flatten_nil,
    List.append_nil, chunkRecord_9000]

theorem process_9000 :
    (process_drive_file env9000 "f9".data { fs := [], points := [], trace := [] }).1
      = Response.success "report.txt".data 3 := by
  have hdrive : env9000.drive "f9".data
      = some { name := "report.txt".data, mimeType := "text/plain".data,
               content := text9000 } := by
    simp [env9000]
  have hpath : joinPath env9000.tmpDir "report.txt".data = "/tmp/report.txt".data := by
    decide
  have hload : load_document env9000 [("/tmp/report.txt".data, text9000)]
      "/tmp/report.txt".data = .ok [doc9000] := by rfl
  have hembed : embed_and_store env9000 chunks9000
      = .ok (PyVal.pyBool true, chunks9000.map
          (fun c => { vector := [], text := c.text, metadata := c.metadata })) := by rfl
  simp only [process_drive_file, hdrive, download_file_from_drive, hpath, hload,
    chunk_documents_9000, hembed]
  rfl

set_option maxRecDepth 100000 in
/-- Claim C8: the spec's end-to-end scenario.  A 9000-character plain-text
file chunked at `max_size = 4000`, `overlap = 200` yields exactly 3 chunks
of sizes `[4000, 4000, 1400]`, every consecutive pair overlapping by
exactly 200 characters, and the endpoint answers
`{status: "success", file: "report.txt", chunks: 3}`. -/
theorem pipeline_9000_char_scenario :
    chunk_documents [doc9000] = .ok chunks9000 ∧
    chunks9000.map (fun c => c.text.length) = [4000, 4000, 1400] ∧
    ((chunks9000.zip chunks9000.tail).all (fun pq =>
      (pq.1.text.drop 3800 == pq.2.text.take 200) &&
        ((pq.2.text.take 200).length == 200))) = true ∧
    (process_drive_file env9000 "f9".data { fs := [], points := [], trace := [] }).1
      = Response.success "report.txt".data 3 := by
  refine ⟨chunk_documents_9000, ?_, ?_, process_9000⟩
  · simp only [chunks9000, List.map_cons, List.map_nil, List.length_replicate]
  · decide

end Pipeline
